import Mathlib

/-!
Verification of the TinyLogger call-logging decorator
(`src/tinylogger/decorator.py`) against its specification.

The embedding models Python values as the inductive `PyVal`, the JSON
serialization performed by `json.dumps(entry, default=str)` as `dumpVal`,
argument binding (`inspect.signature(func).bind(*args, **kwargs)` followed
by `apply_defaults()`) as `bindArgs`, and the decorator's `wrapper`
function as a pure state-passing function over an explicit file state,
warning list and time oracle.  Machine floats are modelled as exact
decimal fractions `mantissa / 10 ^ exp` (the only floats the program
builds are microsecond-derived durations); wall-clock times are integers
of microseconds since the Unix epoch, UTC.
-/

/-- Decimal digit character for `n ∈ [0,9]` (callers only pass reduced
values; the catch-all keeps the function total). -/
def digitChar (n : Nat) : Char :=
  match n with
  | 0 => '0' | 1 => '1' | 2 => '2' | 3 => '3' | 4 => '4'
  | 5 => '5' | 6 => '6' | 7 => '7' | 8 => '8' | _ => '9'

/-- Lower-case hexadecimal digit character for `n ∈ [0,15]`. -/
def hexDigit (n : Nat) : Char :=
  match n with
  | 0 => '0' | 1 => '1' | 2 => '2' | 3 => '3' | 4 => '4'
  | 5 => '5' | 6 => '6' | 7 => '7' | 8 => '8' | 9 => '9'
  | 10 => 'a' | 11 => 'b' | 12 => 'c' | 13 => 'd' | 14 => 'e' | _ => 'f'

/-- Decimal rendering of a natural number, most significant digit first. -/
def natDec (n : Nat) : List Char :=
  if _h : n < 10 then [digitChar n]
  else natDec (n / 10) ++ [digitChar (n % 10)]
termination_by n
decreasing_by exact Nat.div_lt_self (by omega) (by omega)

/-- Decimal rendering of an integer (with a leading minus sign when negative). -/
def intDec (i : Int) : List Char :=
  if i < 0 then '-' :: natDec i.natAbs else natDec i.natAbs

/-- Left-pad a digit string with zeros to the given width. -/
def padZeros (w : Nat) (l : List Char) : List Char :=
  List.replicate (w - l.length) '0' ++ l

/-- Drop trailing zero digits, keeping at least one digit (so `"20"` from
`0.2000` becomes `"2"`, and all-zero input becomes `"0"`). -/
def stripTrailingZeros (l : List Char) : List Char :=
  match (l.reverse.dropWhile (fun c => c = '0')).reverse with
  | [] => ['0']
  | r => r

/-- Rendering of the exact decimal float `m / 10 ^ e`, in the style of
Python float `repr` for such values (integer part, a dot, fractional
digits with trailing zeros removed but at least one digit, e.g. `2.0`). -/
def floatRepr (m : Int) (e : Nat) : List Char :=
  let sign := if m < 0 then ['-'] else []
  let n := m.natAbs
  let ip := n / 10 ^ e
  let fp := n % 10 ^ e
  sign ++ natDec ip ++ '.' :: stripTrailingZeros (padZeros e (natDec fp))

/-- JSON string escaping of one character, as performed by `json.dumps`
with its default `ensure_ascii=True`: the two-character escapes for
quote, backslash and the common control characters, `\uXXXX` escapes for
the remaining control characters, DEL and all non-ASCII characters
(astral characters become a surrogate pair), and every other character
unchanged. -/
def escapeChar (c : Char) : List Char :=
  if c = '"' then ['\\', '"']
  else if c = '\\' then ['\\', '\\']
  else if c = '\n' then ['\\', 'n']
  else if c = '\r' then ['\\', 'r']
  else if c = '\t' then ['\\', 't']
  else if c = '\x08' then ['\\', 'b']
  else if c = '\x0c' then ['\\', 'f']
  else if c.toNat < 0x20 ∨ (0x7f ≤ c.toNat ∧ c.toNat < 0x10000) then
    ['\\', 'u', hexDigit (c.toNat / 4096 % 16), hexDigit (c.toNat / 256 % 16),
     hexDigit (c.toNat / 16 % 16), hexDigit (c.toNat % 16)]
  else if 0x10000 ≤ c.toNat then
    ['\\', 'u', hexDigit ((0xd800 + (c.toNat - 0x10000) / 1024) / 4096 % 16),
     hexDigit ((0xd800 + (c.toNat - 0x10000) / 1024) / 256 % 16),
     hexDigit ((0xd800 + (c.toNat - 0x10000) / 1024) / 16 % 16),
     hexDigit ((0xd800 + (c.toNat - 0x10000) / 1024) % 16),
     '\\', 'u', hexDigit ((0xdc00 + (c.toNat - 0x10000) % 1024) / 4096 % 16),
     hexDigit ((0xdc00 + (c.toNat - 0x10000) % 1024) / 256 % 16),
     hexDigit ((0xdc00 + (c.toNat - 0x10000) % 1024) / 16 % 16),
     hexDigit ((0xdc00 + (c.toNat - 0x10000) % 1024) % 16)]
  else [c]

/-- JSON escaping of a whole character list. -/
def escapeChars (l : List Char) : List Char :=
  match l with
  | [] => []
  | c :: t => escapeChar c ++ escapeChars t

/-- A JSON string literal: opening quote, escaped body, closing quote. -/
def dumpStr (s : String) : List Char :=
  '"' :: escapeChars s.data ++ ['"']

/-- Python values, as far as the logger can observe them.  `vFloat m e`
is the exact decimal `m / 10 ^ e`.  `vObj f` is an opaque non-JSON-native
object; `f` is its `str()` form when it has one (`json.dumps` is called
with `default=str`), and `vObj none` is an object whose textual
conversion itself fails, the only way serialization can fail. -/
inductive PyVal where
  | vNone : PyVal
  | vBool : Bool → PyVal
  | vInt : Int → PyVal
  | vFloat : Int → Nat → PyVal
  | vStr : String → PyVal
  | vList : List PyVal → PyVal
  | vDict : List (String × PyVal) → PyVal
  | vObj : Option String → PyVal

mutual

/-- `json.dumps(v, default=str)` on a `PyVal`, producing the character
list of the compact one-level rendering (default separators `", "` and
`": "`), or failing (Python: `TypeError`) when some reachable `vObj` has
no string form. -/
def dumpVal : PyVal → Except Unit (List Char)
  | PyVal.vNone => Except.ok ['n', 'u', 'l', 'l']
  | PyVal.vBool true => Except.ok ['t', 'r', 'u', 'e']
  | PyVal.vBool false => Except.ok ['f', 'a', 'l', 's', 'e']
  | PyVal.vInt n => Except.ok (intDec n)
  | PyVal.vFloat m e => Except.ok (floatRepr m e)
  | PyVal.vStr s => Except.ok (dumpStr s)
  | PyVal.vList xs => do
      let b ← dumpElems xs
      Except.ok ('[' :: b ++ [']'])
  | PyVal.vDict xs => do
      let b ← dumpPairs xs
      Except.ok ('\x7b' :: b ++ ['\x7d'])
  | PyVal.vObj (some s) => Except.ok (dumpStr s)
  | PyVal.vObj none => Except.error ()

/-- List elements joined with `", "`. -/
def dumpElems : List PyVal → Except Unit (List Char)
  | [] => Except.ok []
  | [v] => dumpVal v
  | v :: w :: t => do
      let a ← dumpVal v
      let b ← dumpElems (w :: t)
      Except.ok (a ++ ',' :: ' ' :: b)

/-- Dict entries `"key": value` joined with `", "`, in list order. -/
def dumpPairs : List (String × PyVal) → Except Unit (List Char)
  | [] => Except.ok []
  | [(k, v)] => do
      let a ← dumpVal v
      Except.ok (dumpStr k ++ ':' :: ' ' :: a)
  | (k, v) :: p :: t => do
      let a ← dumpVal v
      let b ← dumpPairs (p :: t)
      Except.ok ((dumpStr k ++ ':' :: ' ' :: a) ++ ',' :: ' ' :: b)

end

/-- Gregorian civil date from a day count relative to 1970-01-01
(Hinnant's `civil_from_days` algorithm, as used by every proleptic
Gregorian calendar implementation including Python's `datetime.date`). -/
def civilFromDays (days : Int) : Int × Nat × Nat :=
  let z := days + 719468
  let era := z.ediv 146097
  let doe := (z.emod 146097).toNat
  let yoe := (doe - doe / 1460 + doe / 36524 - doe / 146096) / 365
  let y := (yoe : Int) + era * 400
  let doy := doe - (365 * yoe + yoe / 4 - yoe / 100)
  let mp := (5 * doy + 2) / 153
  let d := doy - (153 * mp + 2) / 5 + 1
  let m := if mp < 10 then mp + 3 else mp - 9
  (if m ≤ 2 then y + 1 else y, m, d)

/-- Decimal rendering of a natural number left-padded with zeros to the
given width. -/
def padNat (w : Nat) (n : Nat) : List Char :=
  padZeros w (natDec n)

/-- `datetime.isoformat()` of a timezone-aware UTC `datetime`, for a time
given as microseconds since the Unix epoch: `YYYY-MM-DDTHH:MM:SS`,
a `.ffffff` microsecond part exactly when the microseconds are nonzero,
then the `+00:00` offset. -/
def isoformat (t : Int) : String :=
  let micro := (t.emod 1000000).toNat
  let s := t.ediv 1000000
  let days := s.ediv 86400
  let sod := (s.emod 86400).toNat
  let ymd := civilFromDays days
  let yearChars :=
    if ymd.1 < 0 then '-' :: padNat 4 ymd.1.natAbs else padNat 4 ymd.1.natAbs
  let core :=
    yearChars ++ '-' :: padNat 2 ymd.2.1 ++ '-' :: padNat 2 ymd.2.2 ++
    'T' :: padNat 2 (sod / 3600) ++ ':' :: padNat 2 (sod / 60 % 60) ++
    ':' :: padNat 2 (sod % 60)
  let frac := if micro = 0 then [] else '.' :: padNat 6 micro
  String.mk (core ++ frac ++ ['+', '0', '0', ':', '0', '0'])

/-- Python `round(x, 4)` for `x = micros / 10^6` seconds: the number of
ten-thousandths of a second, rounding half to even. -/
def round4micro (micros : Int) : Int :=
  let q := micros.ediv 100
  let r := micros.emod 100
  if r < 50 then q
  else if 50 < r then q + 1
  else if q.emod 2 = 0 then q else q + 1

/-- One declared parameter of the wrapped function's signature: its name
and, when present, its default value. -/
structure Param where
  name : String
  default : Option PyVal

/-- The value bound to the parameter at position `i` of the signature:
the positional argument at `i` when one was supplied, otherwise the
keyword argument of that name, otherwise the declared default; `none`
means the required parameter is missing and binding fails. -/
def resolveParam (args : List PyVal) (kwargs : List (String × PyVal))
    (i : Nat) (p : Param) : Option PyVal :=
  match args[i]? with
  | some v => some v
  | none =>
    match kwargs.lookup p.name with
    | some v => some v
    | none => p.default

/-- Bind every parameter from position `i` on, in declaration order. -/
def bindFrom (args : List PyVal) (kwargs : List (String × PyVal)) :
    Nat → List Param → Option (List (String × PyVal))
  | _, [] => some []
  | i, p :: t => do
    let v ← resolveParam args kwargs i p
    let rest ← bindFrom args kwargs (i + 1) t
    some ((p.name, v) :: rest)

/-- `inspect.signature(func).bind(*args, **kwargs)` followed by
`apply_defaults()`, for a signature of plain positional-or-keyword
parameters: fails (Python: `TypeError`) on surplus positional arguments,
on a keyword argument that names no parameter, on a keyword argument for
a parameter already bound positionally, and on a missing argument for a
parameter without a default; otherwise yields the fully defaulted
binding in parameter-declaration order. -/
def bindArgs (sig : List Param) (args : List PyVal)
    (kwargs : List (String × PyVal)) : Option (List (String × PyVal)) :=
  if sig.length < args.length then none
  else if kwargs.any (fun kv => (sig.find? (fun p => p.name = kv.1)).isNone) then none
  else if kwargs.any (fun kv => (sig.take args.length).any (fun p => p.name = kv.1)) then none
  else bindFrom args kwargs 0 sig

/-- The non-fatal diagnostics the wrapper can emit through
`warnings.warn`, with the wrapped function's name or the triggering
error's message as payload. -/
inductive Warning where
  | bindFallback : String → Warning
  | logFailed : String → Warning
deriving DecidableEq

/-- The degraded record `{"_args": args, "_kwargs": kwargs}` returned
when binding fails. -/
def fallbackRecord (args : List PyVal) (kwargs : List (String × PyVal)) :
    List (String × PyVal) :=
  [("_args", PyVal.vList args), ("_kwargs", PyVal.vDict kwargs)]

/-- `_get_func_args`: bind the call's arguments to the signature's
parameter names; on any failure of introspection (`sig = none`) or of
binding, warn and fall back to the raw-argument record.  Returns the
params mapping together with the warning emitted, if any. -/
def _get_func_args (funcName : String) (sig : Option (List Param))
    (args : List PyVal) (kwargs : List (String × PyVal)) :
    List (String × PyVal) × Option Warning :=
  match sig with
  | some s =>
    match bindArgs s args kwargs with
    | some bound => (bound, none)
    | none => (fallbackRecord args kwargs, some (Warning.bindFallback funcName))
  | none => (fallbackRecord args kwargs, some (Warning.bindFallback funcName))

/-- `_serialize_log_entry`: `json.dumps(entry, default=str)` plus a
trailing newline; a `TypeError` from `json.dumps` is re-raised as
`LoggerNonSerializableError` with an explanatory message. -/
def _serialize_log_entry (entry : PyVal) : Except String String :=
  match dumpVal entry with
  | Except.ok cs => Except.ok (String.mk (cs ++ ['\n']))
  | Except.error _ =>
    Except.error "Failed to serialize log entry. Your functions arguments or return value (metrics) may contain objects that are not JSON-serializable."

/-- The wrapped function, as the wrapper sees it: its `__name__`, its
introspectable signature (`none` when `inspect.signature` itself fails),
and its behaviour on the raw call arguments — a return value or a raised
exception of the abstract exception type `ε`. -/
structure FuncSpec (ε : Type) where
  name : String
  sig : Option (List Param)
  impl : List PyVal → List (String × PyVal) → Except ε PyVal

/-- The log file: `none` when it does not exist, `some content` when it
exists with the given text. -/
def FileState : Type := Option (List Char)

/-- How the file system treats this call's append: `open(log_file, "a")`
and the subsequent `write` both succeed; or `open` raises (permission
denied, bad path — the file is not created); or `open` succeeds (creating
the file when absent) and `write` raises. -/
inductive IOOutcome where
  | ok : IOOutcome
  | openErr : IOOutcome
  | writeErr : IOOutcome
deriving DecidableEq

/-- Everything observable about one call through the wrapper: what the
caller receives, the file afterwards, the warnings emitted in order, and
— as a ghost observation for the proofs — the log entry dict the wrapper
constructed, when it reached that point. -/
structure CallResult (ε : Type) where
  result : Except ε PyVal
  fs : FileState
  warnings : List Warning
  entry : Option PyVal

/-- The log entry dict, with its five keys in the insertion order used by
the wrapper. -/
def mkLogEntry (startMicros : Int) (runtimeMicros : Int)
    (params : List (String × PyVal)) (metrics : PyVal) (funcName : String) :
    PyVal :=
  PyVal.vDict
    [("timestamp", PyVal.vStr (isoformat startMicros)),
     ("runtime_seconds", PyVal.vFloat (round4micro runtimeMicros) 4),
     ("params", PyVal.vDict params),
     ("metrics", metrics),
     ("function_name", PyVal.vStr funcName)]

/-- The message of the warning emitted when the logging region fails. -/
def logFailedMsg : String :=
  "Failed to log run. Your functions result was returned, but the log was NOT written."

/-- The `wrapper` closure produced by `log_run(log_file)` applied to
`func`, evaluated on one call.  `t0` is the wall clock sampled before the
wrapped call (`start_time`), `t1` the one sampled after it (`end_time`),
both in microseconds since the epoch; `io` is the file system's response
to this call's append; `fs` is the log file before the call.

Mirrors `decorator.py` lines 90-154: run the wrapped function first and
re-raise any exception immediately with no further action; otherwise
compute the runtime, bind the arguments (falling back with a warning),
build the entry dict, serialize it, and append the line — any failure in
that region is caught and reported as a warning, and the wrapped
function's return value is returned in every case. -/
def wrapper (ε : Type) (fn : FuncSpec ε) (io : IOOutcome) (fs : FileState)
    (t0 t1 : Int) (args : List PyVal) (kwargs : List (String × PyVal)) :
    CallResult ε :=
  match fn.impl args kwargs with
  | Except.error e =>
    { result := Except.error e, fs := fs, warnings := [], entry := none }
  | Except.ok metrics =>
    let runtimeMicros := t1 - t0
    let pw := _get_func_args fn.name fn.sig args kwargs
    let ws := match pw.2 with | some w => [w] | none => []
    let log_entry := mkLogEntry t0 runtimeMicros pw.1 metrics fn.name
    match _serialize_log_entry log_entry with
    | Except.error _ =>
      { result := Except.ok metrics, fs := fs,
        warnings := ws ++ [Warning.logFailed logFailedMsg],
        entry := some log_entry }
    | Except.ok log_line =>
      match io with
      | IOOutcome.openErr =>
        { result := Except.ok metrics, fs := fs,
          warnings := ws ++ [Warning.logFailed logFailedMsg],
          entry := some log_entry }
      | IOOutcome.writeErr =>
        { result := Except.ok metrics, fs := some (fs.getD []),
          warnings := ws ++ [Warning.logFailed logFailedMsg],
          entry := some log_entry }
      | IOOutcome.ok =>
        { result := Except.ok metrics, fs := some (fs.getD [] ++ log_line.data),
          warnings := ws, entry := some log_entry }

theorem digitChar_ne_nl (n : Nat) : digitChar n ≠ '\n' := by
  unfold digitChar; split <;> decide

theorem hexDigit_ne_nl (n : Nat) : hexDigit n ≠ '\n' := by
  unfold hexDigit; split <;> decide

theorem natDec_noNL (n : Nat) : ∀ c ∈ natDec n, c ≠ '\n' := by
  induction n using natDec.induct with
  | case1 n h =>
    rw [natDec]
    simp [h]
    exact digitChar_ne_nl n
  | case2 n h ih =>
    rw [natDec]
    simp only [h, dite_false, List.mem_append, List.mem_singleton]
    intro c hc
    rcases hc with hc | hc
    · exact ih c hc
    · rw [hc]; exact digitChar_ne_nl _

theorem intDec_noNL (i : Int) : ∀ c ∈ intDec i, c ≠ '\n' := by
  unfold intDec
  split
  · intro c hc
    rcases List.mem_cons.mp hc with hc | hc
    · rw [hc]; decide
    · exact natDec_noNL _ c hc
  · exact natDec_noNL _

theorem padZeros_noNL (w : Nat) (l : List Char) (hl : ∀ c ∈ l, c ≠ '\n') :
    ∀ c ∈ padZeros w l, c ≠ '\n' := by
  intro c hc
  rcases List.mem_append.mp hc with hc | hc
  · rw [List.eq_of_mem_replicate hc]; decide
  · exact hl c hc

theorem stripTrailingZeros_noNL (l : List Char) (hl : ∀ c ∈ l, c ≠ '\n') :
    ∀ c ∈ stripTrailingZeros l, c ≠ '\n' := by
  intro c hc
  unfold stripTrailingZeros at hc
  split at hc
  · rcases List.mem_singleton.mp hc with rfl; decide
  · have h1 := List.mem_reverse.mp hc
    have h2 := (List.dropWhile_sublist _).mem h1
    exact hl c (List.mem_reverse.mp h2)

theorem floatRepr_noNL (m : Int) (e : Nat) : ∀ c ∈ floatRepr m e, c ≠ '\n' := by
  intro c hc
  unfold floatRepr at hc
  simp only [List.mem_append, List.mem_cons] at hc
  rcases hc with (hc | hc) | hc | hc
  · split at hc
    · rcases List.mem_singleton.mp hc with rfl; decide
    · simp at hc
  · exact natDec_noNL _ c hc
  · rw [hc]; decide
  · exact stripTrailingZeros_noNL _ (padZeros_noNL _ _ (natDec_noNL _)) c hc

theorem escapeChar_noNL (c : Char) : '\n' ∉ escapeChar c := by
  unfold escapeChar
  repeat' split
  all_goals first
    | decide
    | (intro hm
       simp only [List.mem_cons, List.not_mem_nil, or_false] at hm
       rcases hm with h | h | h | h | h | h
       all_goals first
         | exact absurd h (by decide)
         | exact hexDigit_ne_nl _ h.symm)
    | (intro hm
       simp only [List.mem_cons, List.not_mem_nil, or_false] at hm
       rcases hm with h | h | h | h | h | h | h | h | h | h | h | h
       all_goals first
         | exact absurd h (by decide)
         | exact hexDigit_ne_nl _ h.symm)
    | (intro hm
       exact (by assumption : ¬(c = '\n')) (List.mem_singleton.mp hm).symm)

theorem escapeChars_noNL (l : List Char) : '\n' ∉ escapeChars l := by
  induction l with
  | nil => simp [escapeChars]
  | cons c t ih =>
    unfold escapeChars
    intro hm
    rcases List.mem_append.mp hm with hm | hm
    · exact escapeChar_noNL c hm
    · exact ih hm

theorem dumpStr_noNL (s : String) : '\n' ∉ dumpStr s := by
  intro hm
  unfold dumpStr at hm
  rcases List.mem_cons.mp hm with h | hm
  · exact absurd h (by decide)
  · rcases List.mem_append.mp hm with hm | hm
    · exact escapeChars_noNL _ hm
    · rcases List.mem_singleton.mp hm with h
      exact absurd h (by decide)

theorem natDec_noNL' (n : Nat) : '\n' ∉ natDec n :=
  fun hm => natDec_noNL n '\n' hm rfl

theorem intDec_noNL' (i : Int) : '\n' ∉ intDec i :=
  fun hm => intDec_noNL i '\n' hm rfl

theorem floatRepr_noNL' (m : Int) (e : Nat) : '\n' ∉ floatRepr m e :=
  fun hm => floatRepr_noNL m e '\n' hm rfl

/-- No character list produced by the serializer contains a raw newline:
every newline inside a string value is escaped, and all structural and
numeric characters are printable. -/
theorem dump_noNL :
    (∀ v : PyVal, ∀ cs, dumpVal v = Except.ok cs → '\n' ∉ cs) ∧
    (∀ l : List (String × PyVal), ∀ cs, dumpPairs l = Except.ok cs → '\n' ∉ cs) ∧
    (∀ l : List PyVal, ∀ cs, dumpElems l = Except.ok cs → '\n' ∉ cs) := by
  apply dumpVal.mutual_induct
    (motive_1 := fun v => ∀ cs, dumpVal v = Except.ok cs → '\n' ∉ cs)
    (motive_2 := fun l => ∀ cs, dumpPairs l = Except.ok cs → '\n' ∉ cs)
    (motive_3 := fun l => ∀ cs, dumpElems l = Except.ok cs → '\n' ∉ cs)
  · intro cs h
    rw [dumpVal] at h
    cases h
    decide
  · intro cs h
    rw [dumpVal] at h
    cases h
    decide
  · intro cs h
    rw [dumpVal] at h
    cases h
    decide
  · intro n cs h
    rw [dumpVal] at h
    cases h
    exact intDec_noNL' n
  · intro m e cs h
    rw [dumpVal] at h
    cases h
    exact floatRepr_noNL' m e
  · intro s cs h
    rw [dumpVal] at h
    cases h
    exact dumpStr_noNL s
  · intro xs ih cs h
    rw [dumpVal] at h
    cases hb : dumpElems xs with
    | error e => rw [hb] at h; cases h
    | ok b =>
      rw [hb] at h
      cases h
      intro hm
      rcases List.mem_cons.mp hm with h1 | hm
      · exact absurd h1 (by decide)
      · rcases List.mem_append.mp hm with hm | hm
        · exact ih b hb hm
        · rcases List.mem_singleton.mp hm with h1
          exact absurd h1 (by decide)
  · intro xs ih cs h
    rw [dumpVal] at h
    cases hb : dumpPairs xs with
    | error e => rw [hb] at h; cases h
    | ok b =>
      rw [hb] at h
      cases h
      intro hm
      rcases List.mem_cons.mp hm with h1 | hm
      · exact absurd h1 (by decide)
      · rcases List.mem_append.mp hm with hm | hm
        · exact ih b hb hm
        · rcases List.mem_singleton.mp hm with h1
          exact absurd h1 (by decide)
  · intro s cs h
    rw [dumpVal] at h
    cases h
    exact dumpStr_noNL s
  · intro cs h
    rw [dumpVal] at h
    cases h
  · intro cs h
    rw [dumpElems.eq_1] at h
    cases h
    simp
  · intro v ih cs h
    rw [dumpElems.eq_2] at h
    exact ih cs h
  · intro v w t ihv iht cs h
    rw [dumpElems.eq_3] at h
    cases ha : dumpVal v with
    | error e => rw [ha] at h; cases h
    | ok a =>
      rw [ha] at h
      cases hb : dumpElems (w :: t) with
      | error e => rw [hb] at h; cases h
      | ok b =>
        rw [hb] at h
        cases h
        intro hm
        rcases List.mem_append.mp hm with hm | hm
        · exact ihv a ha hm
        · rcases List.mem_cons.mp hm with h1 | hm
          · exact absurd h1 (by decide)
          · rcases List.mem_cons.mp hm with h1 | hm
            · exact absurd h1 (by decide)
            · exact iht b hb hm
  · intro cs h
    rw [dumpPairs.eq_1] at h
    cases h
    simp
  · intro k v ih cs h
    rw [dumpPairs.eq_2] at h
    cases ha : dumpVal v with
    | error e => rw [ha] at h; cases h
    | ok a =>
      rw [ha] at h
      cases h
      intro hm
      rcases List.mem_append.mp hm with hm | hm
      · exact dumpStr_noNL k hm
      · rcases List.mem_cons.mp hm with h1 | hm
        · exact absurd h1 (by decide)
        · rcases List.mem_cons.mp hm with h1 | hm
          · exact absurd h1 (by decide)
          · exact ih a ha hm
  · intro k v p t ihv iht cs h
    rw [dumpPairs.eq_3] at h
    cases ha : dumpVal v with
    | error e => rw [ha] at h; cases h
    | ok a =>
      rw [ha] at h
      cases hb : dumpPairs (p :: t) with
      | error e => rw [hb] at h; cases h
      | ok b =>
        rw [hb] at h
        cases h
        intro hm
        rcases List.mem_append.mp hm with hm | hm
        · rcases List.mem_append.mp hm with hm | hm
          · exact dumpStr_noNL k hm
          · rcases List.mem_cons.mp hm with h1 | hm
            · exact absurd h1 (by decide)
            · rcases List.mem_cons.mp hm with h1 | hm
              · exact absurd h1 (by decide)
              · exact ihv a ha hm
        · rcases List.mem_cons.mp hm with h1 | hm
          · exact absurd h1 (by decide)
          · rcases List.mem_cons.mp hm with h1 | hm
            · exact absurd h1 (by decide)
            · exact iht b hb hm

/-- The pure join of pre-rendered pieces with `", "`, used to state that
the serializer emits dict entries in insertion order. -/
def joinCommaSep : List (List Char) → List Char
  | [] => []
  | [p] => p
  | p :: q :: t => p ++ ',' :: ' ' :: joinCommaSep (q :: t)

/-- A successfully serialized dict body is exactly the `", "`-join of the
renderings `"key": value` of its entries, in the insertion order of the
entry list (no reordering, no canonicalization). -/
theorem dumpPairs_join (xs : List (String × PyVal)) :
    ∀ body, dumpPairs xs = Except.ok body →
    ∃ vs, List.Forall₂ (fun kv v => dumpVal kv.2 = Except.ok v) xs vs ∧
      body = joinCommaSep
        (List.zipWith (fun kv v => dumpStr kv.1 ++ ':' :: ' ' :: v) xs vs) := by
  induction xs with
  | nil =>
    intro body h
    rw [dumpPairs.eq_1] at h
    cases h
    exact ⟨[], List.Forall₂.nil, rfl⟩
  | cons kv t ih =>
    obtain ⟨k, v⟩ := kv
    cases t with
    | nil =>
      intro body h
      rw [dumpPairs.eq_2] at h
      cases ha : dumpVal v with
      | error e => rw [ha] at h; cases h
      | ok a =>
        rw [ha] at h
        cases h
        exact ⟨[a], List.Forall₂.cons ha List.Forall₂.nil, rfl⟩
    | cons p t2 =>
      intro body h
      rw [dumpPairs.eq_3] at h
      cases ha : dumpVal v with
      | error e => rw [ha] at h; cases h
      | ok a =>
        rw [ha] at h
        cases hb : dumpPairs (p :: t2) with
        | error e => rw [hb] at h; cases h
        | ok b =>
          rw [hb] at h
          cases h
          obtain ⟨vs, hf, rfl⟩ := ih b hb
          rcases hf with _ | ⟨hpv, hf2⟩
          exact ⟨a :: _ :: _, List.Forall₂.cons ha (List.Forall₂.cons hpv hf2), by
            simp [joinCommaSep, List.zipWith]⟩

/-- A successful `_serialize_log_entry` result is a newline-free body
followed by exactly one newline character. -/
theorem serialize_line_shape (entry : PyVal) (s : String)
    (h : _serialize_log_entry entry = Except.ok s) :
    ∃ body, dumpVal entry = Except.ok body ∧ s.data = body ++ ['\n'] ∧
      '\n' ∉ body ∧ s.data.count '\n' = 1 := by
  unfold _serialize_log_entry at h
  cases hd : dumpVal entry with
  | error e => rw [hd] at h; cases h
  | ok cs =>
    rw [hd] at h
    cases h
    refine ⟨cs, rfl, rfl, dump_noNL.1 entry cs hd, ?_⟩
    have hz : cs.count '\n' = 0 := List.count_eq_zero.mpr (dump_noNL.1 entry cs hd)
    show (cs ++ ['\n']).count '\n' = 1
    rw [List.count_append, hz]
    decide

/-- Formalization of the specification's description of the recorded
`params` mapping (spec section 8, first property): each parameter name
maps to the explicitly supplied argument when one was given — the
positional argument at the parameter's position, or the keyword argument
of its name — and otherwise to the parameter's declared default.  Stated
from the spec's words, to be compared with the binding the code computes;
the `PyVal.vNone` fallback is unreachable whenever binding succeeded. -/
def specBindFrom (args : List PyVal) (kwargs : List (String × PyVal)) :
    Nat → List Param → List (String × PyVal)
  | _, [] => []
  | i, p :: t =>
    (p.name,
      match args[i]? with
      | some w => w
      | none =>
        match kwargs.lookup p.name with
        | some w => w
        | none => p.default.getD PyVal.vNone) :: specBindFrom args kwargs (i + 1) t

/-- Spec-side fully defaulted binding of a whole signature. -/
def specDefaultedBinding (sig : List Param) (args : List PyVal)
    (kwargs : List (String × PyVal)) : List (String × PyVal) :=
  specBindFrom args kwargs 0 sig

theorem specBindFrom_keys (args : List PyVal) (kwargs : List (String × PyVal)) :
    ∀ (t : List Param) (i : Nat),
    (specBindFrom args kwargs i t).map Prod.fst = t.map Param.name := by
  intro t
  induction t with
  | nil => intro i; rfl
  | cons p t ih =>
    intro i
    simp only [specBindFrom, List.map_cons]
    rw [ih]

theorem bindFrom_eq_spec (args : List PyVal) (kwargs : List (String × PyVal)) :
    ∀ (t : List Param) (i : Nat) (l : List (String × PyVal)),
    bindFrom args kwargs i t = some l → l = specBindFrom args kwargs i t := by
  intro t
  induction t with
  | nil =>
    intro i l h
    rw [bindFrom] at h
    cases h
    rfl
  | cons p t ih =>
    intro i l h
    rw [bindFrom] at h
    cases hv : resolveParam args kwargs i p with
    | none => rw [hv] at h; cases h
    | some v =>
      rw [hv] at h
      cases hr : bindFrom args kwargs (i + 1) t with
      | none => rw [hr] at h; cases h
      | some rest =>
        rw [hr] at h
        cases h
        have hrest := ih (i + 1) rest hr
        subst hrest
        unfold resolveParam at hv
        rw [specBindFrom.eq_2]
        cases hai : args[i]? with
        | some w =>
          rw [hai] at hv
          cases hv
          rfl
        | none =>
          rw [hai] at hv
          cases hkw : kwargs.lookup p.name with
          | some w =>
            rw [hkw] at hv
            cases hv
            rfl
          | none =>
            rw [hkw] at hv
            change p.default = some v at hv
            change _ = (p.name, p.default.getD PyVal.vNone) :: _
            rw [hv]
            rfl

theorem bindArgs_eq_spec (sig : List Param) (args : List PyVal)
    (kwargs : List (String × PyVal)) (bound : List (String × PyVal))
    (h : bindArgs sig args kwargs = some bound) :
    bound = specDefaultedBinding sig args kwargs := by
  unfold bindArgs at h
  split at h
  · cases h
  · split at h
    · cases h
    · split at h
      · cases h
      · exact bindFrom_eq_spec args kwargs sig 0 bound h

/-- The warning `_get_func_args` may emit is the binding-fallback warning
naming the wrapped function, and nothing else. -/
theorem get_func_args_snd (funcName : String) (sig : Option (List Param))
    (args : List PyVal) (kwargs : List (String × PyVal)) :
    (_get_func_args funcName sig args kwargs).2 = none ∨
    (_get_func_args funcName sig args kwargs).2 =
      some (Warning.bindFallback funcName) := by
  cases sig with
  | none => right; rfl
  | some s =>
    cases h : bindArgs s args kwargs with
    | none => right; simp only [_get_func_args, h]
    | some bound => left; simp only [_get_func_args, h]

/-- Boolean recognizer for the binding-fallback warning. -/
def isBindFallbackW : Warning → Bool
  | Warning.bindFallback _ => true
  | Warning.logFailed _ => false

/-- Boolean recognizer for the logging-failure warning. -/
def isLogFailedW : Warning → Bool
  | Warning.bindFallback _ => false
  | Warning.logFailed _ => true

/-- C1: for every wrapped function and every call on which the wrapped
function raises, the wrapper re-raises that same exception unchanged, the
log file is untouched (no line appended), no warning is emitted, and no
log entry is constructed. -/
theorem c1_exception_propagates_unchanged (ε : Type) (fn : FuncSpec ε)
    (io : IOOutcome) (fs : FileState) (t0 t1 : Int) (args : List PyVal)
    (kwargs : List (String × PyVal)) (e : ε)
    (himpl : fn.impl args kwargs = Except.error e) :
    wrapper ε fn io fs t0 t1 args kwargs =
      { result := Except.error e, fs := fs, warnings := [], entry := none } := by
  simp only [wrapper, himpl]

/-- Witness for C1 at a concrete failing call. -/
theorem c1_witness :
    wrapper Nat ⟨"f", some [], fun _ _ => Except.error 42⟩ IOOutcome.ok
        (some ['x']) 0 5 [] [] =
      { result := Except.error 42, fs := some ['x'], warnings := [],
        entry := none } :=
  c1_exception_propagates_unchanged Nat ⟨"f", some [], fun _ _ => Except.error 42⟩
    IOOutcome.ok (some ['x']) 0 5 [] [] 42 rfl

/-- C2: for every call on which the wrapped function returns
successfully, the wrapper returns that same value to the caller whatever
the file system does and whatever happens in the logging region. -/
theorem c2_result_always_returned (ε : Type) (fn : FuncSpec ε)
    (io : IOOutcome) (fs : FileState) (t0 t1 : Int) (args : List PyVal)
    (kwargs : List (String × PyVal)) (m : PyVal)
    (himpl : fn.impl args kwargs = Except.ok m) :
    (wrapper ε fn io fs t0 t1 args kwargs).result = Except.ok m := by
  simp only [wrapper, himpl]
  repeat' split
  all_goals rfl

/-- Witness for C2 at a concrete call whose append fails at open time. -/
theorem c2_witness :
    (wrapper Unit ⟨"g", some [], fun _ _ => Except.ok (PyVal.vInt 7)⟩
        IOOutcome.openErr none 0 3 [] []).result = Except.ok (PyVal.vInt 7) :=
  c2_result_always_returned Unit ⟨"g", some [], fun _ _ => Except.ok (PyVal.vInt 7)⟩
    IOOutcome.openErr none 0 3 [] [] (PyVal.vInt 7) rfl

/-- C4: whenever binding succeeds, the recorded params mapping is the
fully defaulted binding described by the spec — explicitly supplied
arguments override defaults, omitted optional parameters take their
declared default — with keys equal to the declared parameter names, in
declaration order, unique when the declared names are. -/
theorem c4_params_equal_defaulted_binding (sig : List Param)
    (args : List PyVal) (kwargs : List (String × PyVal))
    (bound : List (String × PyVal))
    (hnd : (sig.map Param.name).Nodup)
    (h : bindArgs sig args kwargs = some bound) :
    bound = specDefaultedBinding sig args kwargs ∧
    bound.map Prod.fst = sig.map Param.name ∧
    (bound.map Prod.fst).Nodup := by
  have h1 := bindArgs_eq_spec sig args kwargs bound h
  subst h1
  have hkeys : (specDefaultedBinding sig args kwargs).map Prod.fst =
      sig.map Param.name := specBindFrom_keys args kwargs sig 0
  refine ⟨rfl, hkeys, ?_⟩
  rw [hkeys]
  exact hnd

/-- Witness for C4: the spec's own example `model(5, _c="override")` with
signature `model(a, b=10, _c="test")`. -/
theorem c4_witness :
    [("a", PyVal.vInt 5), ("b", PyVal.vInt 10), ("_c", PyVal.vStr "override")] =
      specDefaultedBinding
        [⟨"a", none⟩, ⟨"b", some (PyVal.vInt 10)⟩, ⟨"_c", some (PyVal.vStr "test")⟩]
        [PyVal.vInt 5] [("_c", PyVal.vStr "override")] ∧
    ([("a", PyVal.vInt 5), ("b", PyVal.vInt 10),
        ("_c", PyVal.vStr "override")].map Prod.fst) =
      [⟨"a", none⟩, ⟨"b", some (PyVal.vInt 10)⟩,
        (⟨"_c", some (PyVal.vStr "test")⟩ : Param)].map Param.name ∧
    ([("a", PyVal.vInt 5), ("b", PyVal.vInt 10),
        ("_c", PyVal.vStr "override")].map Prod.fst).Nodup :=
  c4_params_equal_defaulted_binding
    [⟨"a", none⟩, ⟨"b", some (PyVal.vInt 10)⟩, ⟨"_c", some (PyVal.vStr "test")⟩]
    [PyVal.vInt 5] [("_c", PyVal.vStr "override")]
    [("a", PyVal.vInt 5), ("b", PyVal.vInt 10), ("_c", PyVal.vStr "override")]
    (by decide) rfl

/-- C5: whenever signature introspection or binding fails, the argument
binder returns the degraded record with the raw positional and keyword
arguments under the fixed keys `_args` and `_kwargs`, and emits the
non-fatal warning that names the wrapped function; being a total
function, this fallback path cannot raise. -/
theorem c5_binding_fallback (funcName : String) (sig : Option (List Param))
    (args : List PyVal) (kwargs : List (String × PyVal))
    (h : sig = none ∨ ∃ s, sig = some s ∧ bindArgs s args kwargs = none) :
    _get_func_args funcName sig args kwargs =
      (fallbackRecord args kwargs, some (Warning.bindFallback funcName)) := by
  rcases h with rfl | ⟨s, rfl, hb⟩
  · rfl
  · simp only [_get_func_args, hb]

/-- Witness for C5: two positional arguments against a one-parameter
signature. -/
theorem c5_witness :
    _get_func_args "f" (some [⟨"a", none⟩]) [PyVal.vInt 1, PyVal.vInt 2] [] =
      (fallbackRecord [PyVal.vInt 1, PyVal.vInt 2] [],
        some (Warning.bindFallback "f")) :=
  c5_binding_fallback "f" (some [⟨"a", none⟩]) [PyVal.vInt 1, PyVal.vInt 2] []
    (Or.inr ⟨[⟨"a", none⟩], rfl, rfl⟩)

/-- C3: on a successful call whose log entry is not JSON-representable
(its serialization raises the NonSerializable failure), the wrapper emits
the non-fatal logging-failure warning, appends nothing to the log file,
and still returns the original value; the failure never escapes the
wrapper. -/
theorem c3_nonserializable_warn_return (ε : Type) (fn : FuncSpec ε)
    (io : IOOutcome) (fs : FileState) (t0 t1 : Int) (args : List PyVal)
    (kwargs : List (String × PyVal)) (m : PyVal) (msg : String)
    (himpl : fn.impl args kwargs = Except.ok m)
    (hser : _serialize_log_entry
        (mkLogEntry t0 (t1 - t0) (_get_func_args fn.name fn.sig args kwargs).1
          m fn.name) = Except.error msg) :
    (wrapper ε fn io fs t0 t1 args kwargs).result = Except.ok m ∧
    (wrapper ε fn io fs t0 t1 args kwargs).fs = fs ∧
    Warning.logFailed logFailedMsg ∈ (wrapper ε fn io fs t0 t1 args kwargs).warnings := by
  simp only [wrapper, himpl, hser]
  simp

/-- Witness for C3: the wrapped function returns an object with no JSON
and no string form; the call still delivers it and the file stays
untouched. -/
theorem c3_witness :
    (wrapper Unit ⟨"h", some [], fun _ _ => Except.ok (PyVal.vObj none)⟩
        IOOutcome.ok (some ['x']) 0 1 [] []).result =
      Except.ok (PyVal.vObj none) ∧
    (wrapper Unit ⟨"h", some [], fun _ _ => Except.ok (PyVal.vObj none)⟩
        IOOutcome.ok (some ['x']) 0 1 [] []).fs = some ['x'] ∧
    Warning.logFailed logFailedMsg ∈
      (wrapper Unit ⟨"h", some [], fun _ _ => Except.ok (PyVal.vObj none)⟩
        IOOutcome.ok (some ['x']) 0 1 [] []).warnings :=
  c3_nonserializable_warn_return Unit
    ⟨"h", some [], fun _ _ => Except.ok (PyVal.vObj none)⟩ IOOutcome.ok
    (some ['x']) 0 1 [] [] (PyVal.vObj none) _ rfl rfl

/-- C10: the file is opened — and so created when absent — only after the
whole entry has serialized successfully: a serialization failure leaves
the file state exactly as it was, not even creating the file. -/
theorem c10_serialize_failure_leaves_file_untouched (ε : Type)
    (fn : FuncSpec ε) (io : IOOutcome) (fs : FileState) (t0 t1 : Int)
    (args : List PyVal) (kwargs : List (String × PyVal)) (m : PyVal)
    (msg : String)
    (himpl : fn.impl args kwargs = Except.ok m)
    (hser : _serialize_log_entry
        (mkLogEntry t0 (t1 - t0) (_get_func_args fn.name fn.sig args kwargs).1
          m fn.name) = Except.error msg) :
    (wrapper ε fn io fs t0 t1 args kwargs).fs = fs := by
  simp only [wrapper, himpl, hser]

/-- Witness for C10: with no log file present and a non-serializable
return value, the file is not created. -/
theorem c10_witness :
    (wrapper Unit ⟨"h2", some [], fun _ _ => Except.ok (PyVal.vObj none)⟩
        IOOutcome.ok none 0 1 [] []).fs = none :=
  c10_serialize_failure_leaves_file_untouched Unit
    ⟨"h2", some [], fun _ _ => Except.ok (PyVal.vObj none)⟩ IOOutcome.ok
    none 0 1 [] [] (PyVal.vObj none) _ rfl rfl

/-- C9: in every constructed log entry, the `timestamp` field is the
ISO-8601 UTC rendering of the wall-clock time sampled before the wrapped
call (`t0`, the start time, not `t1`), and `runtime_seconds` is the
elapsed duration `t1 - t0` rounded to 4 decimal places. -/
theorem c9_timestamp_start_runtime_rounded (ε : Type) (fn : FuncSpec ε)
    (io : IOOutcome) (fs : FileState) (t0 t1 : Int) (args : List PyVal)
    (kwargs : List (String × PyVal)) (m : PyVal)
    (himpl : fn.impl args kwargs = Except.ok m) :
    (wrapper ε fn io fs t0 t1 args kwargs).entry =
      some (PyVal.vDict
        [("timestamp", PyVal.vStr (isoformat t0)),
         ("runtime_seconds", PyVal.vFloat (round4micro (t1 - t0)) 4),
         ("params", PyVal.vDict (_get_func_args fn.name fn.sig args kwargs).1),
         ("metrics", m),
         ("function_name", PyVal.vStr fn.name)]) := by
  simp only [wrapper, himpl, mkLogEntry]
  repeat' split
  all_goals rfl

/-- Witness for C9 at a concrete call lasting 1.234567 seconds started at
the epoch. -/
theorem c9_witness :
    (wrapper Unit ⟨"m", some [], fun _ _ => Except.ok PyVal.vNone⟩
        IOOutcome.ok none 0 1234567 [] []).entry =
      some (PyVal.vDict
        [("timestamp", PyVal.vStr (isoformat 0)),
         ("runtime_seconds", PyVal.vFloat (round4micro (1234567 - 0)) 4),
         ("params", PyVal.vDict
           (_get_func_args "m" (some []) [] []).1),
         ("metrics", PyVal.vNone),
         ("function_name", PyVal.vStr "m")]) :=
  c9_timestamp_start_runtime_rounded Unit
    ⟨"m", some [], fun _ _ => Except.ok PyVal.vNone⟩ IOOutcome.ok none 0 1234567
    [] [] PyVal.vNone rfl

/-- C7: a successful call whose logging succeeds appends exactly the
serialized line at the end of the file, leaving all previous content in
place, and that line consists of a newline-free body followed by exactly
one newline — so repeated calls append strictly one line each, in call
order, and the file grows monotonically. -/
theorem c7_append_exactly_one_line (ε : Type) (fn : FuncSpec ε)
    (io : IOOutcome) (fs : FileState) (t0 t1 : Int) (args : List PyVal)
    (kwargs : List (String × PyVal)) (m : PyVal) (line : String)
    (himpl : fn.impl args kwargs = Except.ok m)
    (hline : _serialize_log_entry
        (mkLogEntry t0 (t1 - t0) (_get_func_args fn.name fn.sig args kwargs).1
          m fn.name) = Except.ok line)
    (hio : io = IOOutcome.ok) :
    (wrapper ε fn io fs t0 t1 args kwargs).fs =
      some (fs.getD [] ++ line.data) ∧
    ∃ body, line.data = body ++ ['\n'] ∧ '\n' ∉ body ∧
      line.data.count '\n' = 1 := by
  subst hio
  constructor
  · simp only [wrapper, himpl, hline]
  · obtain ⟨body, _hb, hdata, hnl, hcount⟩ := serialize_line_shape _ _ hline
    exact ⟨body, hdata, hnl, hcount⟩

/-- Witness for C7 at a concrete logged call appending to a file that
already holds one character. -/
theorem c7_witness :
    (wrapper Unit ⟨"w", some [], fun _ _ => Except.ok PyVal.vNone⟩ IOOutcome.ok
        (some ['a']) 0 0 [] []).fs =
      some (['a'] ++ ((_serialize_log_entry
        (mkLogEntry 0 (0 - 0) (_get_func_args "w" (some []) [] []).1 PyVal.vNone
          "w")).toOption.getD "").data) ∧
    ∃ body, ((_serialize_log_entry
        (mkLogEntry 0 (0 - 0) (_get_func_args "w" (some []) [] []).1 PyVal.vNone
          "w")).toOption.getD "").data = body ++ ['\n'] ∧ '\n' ∉ body ∧
      ((_serialize_log_entry
        (mkLogEntry 0 (0 - 0) (_get_func_args "w" (some []) [] []).1 PyVal.vNone
          "w")).toOption.getD "").data.count '\n' = 1 :=
  c7_append_exactly_one_line Unit ⟨"w", some [], fun _ _ => Except.ok PyVal.vNone⟩
    IOOutcome.ok (some ['a']) 0 0 [] [] PyVal.vNone _ rfl rfl rfl

/-- C8: every log entry dict the serializer accepts becomes a single-line
JSON text — a newline-free body terminated by exactly one newline — whose
entries appear joined by a comma separator in the insertion order of the
entry mapping, each as its escaped key, a colon separator, and its
rendered value: no key reordering or canonicalization. -/
theorem c8_single_line_insertion_order (xs : List (String × PyVal))
    (s : String)
    (h : _serialize_log_entry (PyVal.vDict xs) = Except.ok s) :
    s.data.count '\n' = 1 ∧
    ∃ body, dumpPairs xs = Except.ok body ∧
      s.data = '\x7b' :: body ++ ['\x7d', '\n'] ∧
      '\n' ∉ '\x7b' :: body ++ ['\x7d'] ∧
      ∃ vs, List.Forall₂ (fun kv v => dumpVal kv.2 = Except.ok v) xs vs ∧
        body = joinCommaSep
          (List.zipWith (fun kv v => dumpStr kv.1 ++ ':' :: ' ' :: v) xs vs) := by
  unfold _serialize_log_entry at h
  cases hd : dumpVal (PyVal.vDict xs) with
  | error e => rw [hd] at h; cases h
  | ok cs =>
    rw [hd] at h
    cases h
    rw [dumpVal] at hd
    cases hb : dumpPairs xs with
    | error e => rw [hb] at hd; cases hd
    | ok b =>
      rw [hb] at hd
      cases hd
      have hnlb : '\n' ∉ b := dump_noNL.2.1 xs b hb
      have hnl : '\n' ∉ '\x7b' :: b ++ ['\x7d'] := by
        intro hm
        rcases List.mem_cons.mp hm with h1 | hm
        · exact absurd h1 (by decide)
        · rcases List.mem_append.mp hm with hm | hm
          · exact hnlb hm
          · rcases List.mem_singleton.mp hm with h1
            exact absurd h1 (by decide)
      constructor
      · show (('\x7b' :: b ++ ['\x7d']) ++ ['\n']).count '\n' = 1
        rw [List.count_append, List.count_eq_zero.mpr hnl]
        decide
      · obtain ⟨vs, hf, hbody⟩ := dumpPairs_join xs b hb
        exact ⟨b, rfl, by simp, hnl, vs, hf, hbody⟩

/-- Witness for C8 at a concrete two-entry dict. -/
theorem c8_witness :
    (((_serialize_log_entry (PyVal.vDict [("k", PyVal.vInt 3),
        ("u", PyVal.vStr "a\nb")])).toOption.getD "").data.count '\n' = 1) ∧
    ∃ body, dumpPairs [("k", PyVal.vInt 3), ("u", PyVal.vStr "a\nb")] =
        Except.ok body ∧
      ((_serialize_log_entry (PyVal.vDict [("k", PyVal.vInt 3),
        ("u", PyVal.vStr "a\nb")])).toOption.getD "").data =
        '\x7b' :: body ++ ['\x7d', '\n'] ∧
      '\n' ∉ '\x7b' :: body ++ ['\x7d'] ∧
      ∃ vs, List.Forall₂ (fun kv v => dumpVal kv.2 = Except.ok v)
          [("k", PyVal.vInt 3), ("u", PyVal.vStr "a\nb")] vs ∧
        body = joinCommaSep
          (List.zipWith (fun kv v => dumpStr kv.1 ++ ':' :: ' ' :: v)
            [("k", PyVal.vInt 3), ("u", PyVal.vStr "a\nb")] vs) :=
  c8_single_line_insertion_order [("k", PyVal.vInt 3), ("u", PyVal.vStr "a\nb")]
    _ rfl

/-- C6 counterexample: a call that both fails to bind (two positional
arguments against a one-parameter signature) and fails to append (open
error) emits two warnings — the binding-fallback warning and the
logging-failure warning — so "at most one warning per call, never both"
is false on the code. -/
theorem c6_counterexample :
    ¬ ((wrapper Unit ⟨"f", some [⟨"a", none⟩], fun _ _ => Except.ok PyVal.vNone⟩
        IOOutcome.openErr none 0 0 [PyVal.vInt 1, PyVal.vInt 2] []).warnings.length ≤ 1) := by
  decide

/-- C6 amended: per call there is at most one append to the target file
(of one whole newline-terminated line), at most one binding-fallback
warning and at most one logging-failure warning — but the two warnings
can co-occur on the same call, when binding falls back and the
serialization or append then fails. -/
theorem c6_amended_warning_append_discipline (ε : Type) (fn : FuncSpec ε)
    (io : IOOutcome) (fs : FileState) (t0 t1 : Int) (args : List PyVal)
    (kwargs : List (String × PyVal)) :
    (∃ wbf wlf, (wrapper ε fn io fs t0 t1 args kwargs).warnings = wbf ++ wlf ∧
      (wbf = [] ∨ wbf = [Warning.bindFallback fn.name]) ∧
      (wlf = [] ∨ wlf = [Warning.logFailed logFailedMsg])) ∧
    ∃ suffix, (wrapper ε fn io fs t0 t1 args kwargs).fs.getD [] =
        fs.getD [] ++ suffix ∧
      (suffix = [] ∨ ∃ body, suffix = body ++ ['\n'] ∧ '\n' ∉ body) := by
  cases himpl : fn.impl args kwargs with
  | error e =>
    simp only [wrapper, himpl]
    exact ⟨⟨[], [], rfl, Or.inl rfl, Or.inl rfl⟩,
      [], (List.append_nil _).symm, Or.inl rfl⟩
  | ok m =>
    have hws := get_func_args_snd fn.name fn.sig args kwargs
    rcases hws with hw | hw
    · simp only [wrapper, himpl, hw]
      cases hser : _serialize_log_entry
          (mkLogEntry t0 (t1 - t0) (_get_func_args fn.name fn.sig args kwargs).1
            m fn.name) with
      | error msg =>
        exact ⟨⟨[], [Warning.logFailed logFailedMsg], rfl, Or.inl rfl, Or.inr rfl⟩,
          [], (List.append_nil _).symm, Or.inl rfl⟩
      | ok line =>
        cases io with
        | openErr =>
          exact ⟨⟨[], [Warning.logFailed logFailedMsg], rfl, Or.inl rfl, Or.inr rfl⟩,
            [], (List.append_nil _).symm, Or.inl rfl⟩
        | writeErr =>
          exact ⟨⟨[], [Warning.logFailed logFailedMsg], rfl, Or.inl rfl, Or.inr rfl⟩,
            [], (List.append_nil _).symm, Or.inl rfl⟩
        | ok =>
          obtain ⟨body, _hb, hdata, hnl, _⟩ := serialize_line_shape _ _ hser
          exact ⟨⟨[], [], rfl, Or.inl rfl, Or.inl rfl⟩,
            line.data, rfl, Or.inr ⟨body, hdata, hnl⟩⟩
    · simp only [wrapper, himpl, hw]
      cases hser : _serialize_log_entry
          (mkLogEntry t0 (t1 - t0) (_get_func_args fn.name fn.sig args kwargs).1
            m fn.name) with
      | error msg =>
        exact ⟨⟨[Warning.bindFallback fn.name], [Warning.logFailed logFailedMsg],
          rfl, Or.inr rfl, Or.inr rfl⟩,
          [], (List.append_nil _).symm, Or.inl rfl⟩
      | ok line =>
        cases io with
        | openErr =>
          exact ⟨⟨[Warning.bindFallback fn.name], [Warning.logFailed logFailedMsg],
            rfl, Or.inr rfl, Or.inr rfl⟩,
            [], (List.append_nil _).symm, Or.inl rfl⟩
        | writeErr =>
          exact ⟨⟨[Warning.bindFallback fn.name], [Warning.logFailed logFailedMsg],
            rfl, Or.inr rfl, Or.inr rfl⟩,
            [], (List.append_nil _).symm, Or.inl rfl⟩
        | ok =>
          obtain ⟨body, _hb, hdata, hnl, _⟩ := serialize_line_shape _ _ hser
          exact ⟨⟨[Warning.bindFallback fn.name], [], (List.append_nil _).symm,
            Or.inr rfl, Or.inl rfl⟩,
            line.data, rfl, Or.inr ⟨body, hdata, hnl⟩⟩
